import Mathlib

/-!
Shallow embedding of the booking-flow repository: the conflict-detection
engine and storage operations (`MemStorage` in the server storage module,
routes in `src/server/routes.ts`), the calendar grid and date utilities
(`src/client/src/lib/calendar-utils.ts`), and the pointer-driven range
selection state machine (`src/client/src/components/calendar/calendar-grid.tsx`).

Calendar days: the source represents a day either as a canonical
`YYYY-MM-DD` string or as a JavaScript `Date` at midnight UTC (date-only
strings parse as UTC midnight, and `toISOString().split('T')[0]` converts
back).  Both forms are in order-preserving bijection with the count of days
since 1970-01-01, so the embedding represents a calendar day as that count
(an `Int`, here called an epoch day); `formatDateString` recovers the
canonical string.  Civil-calendar conversions follow the standard
proleptic-Gregorian algorithms, which is what the JavaScript `Date` engine
implements.
-/

/-- Civil (proleptic Gregorian) calendar date: year, month `1..12`, day `1..31`. -/
structure CivDate where
  year : Int
  month : Nat
  day : Nat
deriving Repr, DecidableEq

/-- Epoch day of a civil date: days since 1970-01-01 (the `days_from_civil`
Gregorian algorithm, as implemented by the JavaScript `Date` engine for
`new Date(y, m, d)` at UTC midnight). -/
def daysFromCivil (y : Int) (m d : Nat) : Int :=
  let yAdj : Int := if m ≤ 2 then y - 1 else y
  let era : Int := Int.fdiv yAdj 400
  let yoe : Nat := (yAdj - era * 400).toNat
  let mp : Nat := if m > 2 then m - 3 else m + 9
  let doy : Nat := (153 * mp + 2) / 5 + d - 1
  let doe : Nat := yoe * 365 + yoe / 4 - yoe / 100 + doy
  era * 146097 + (doe : Int) - 719468

/-- Civil date of an epoch day (the `civil_from_days` Gregorian algorithm). -/
def civilFromDays (z : Int) : CivDate :=
  let z' : Int := z + 719468
  let era : Int := Int.fdiv z' 146097
  let doe : Nat := (z' - era * 146097).toNat
  let yoe : Nat := (doe - doe / 1460 + doe / 36524 - doe / 146096) / 365
  let y : Int := (yoe : Int) + era * 400
  let doy : Nat := doe - (365 * yoe + yoe / 4 - yoe / 100)
  let mp : Nat := (5 * doy + 2) / 153
  let d : Nat := doy - (153 * mp + 2) / 5 + 1
  let m : Nat := if mp < 10 then mp + 3 else mp - 9
  ⟨if m ≤ 2 then y + 1 else y, m, d⟩

/-- Day of week of an epoch day, `0` = Sunday .. `6` = Saturday
(JavaScript `Date.prototype.getDay`; 1970-01-01 was a Thursday). -/
def dayOfWeek (z : Int) : Nat := ((z + 4).emod 7).toNat

/-- Zero-indexed month (`0` = January .. `11` = December) of an epoch day
(JavaScript `Date.prototype.getMonth`). -/
def monthIdx (z : Int) : Nat := (civilFromDays z).month - 1

/-- Day of month of an epoch day (JavaScript `Date.prototype.getDate`). -/
def dayOfMonth (z : Int) : Nat := (civilFromDays z).day

/-- Two-digit zero-padded decimal rendering. -/
def pad2 (n : Nat) : String := if n < 10 then "0" ++ toString n else toString n

/-- Four-digit zero-padded decimal rendering. -/
def pad4 (n : Nat) : String :=
  if n < 10 then "000" ++ toString n
  else if n < 100 then "00" ++ toString n
  else if n < 1000 then "0" ++ toString n
  else toString n

/-- Embeds `formatDateString` from `calendar-utils.ts`:
`date.toISOString().split('T')[0]`, i.e. the canonical `YYYY-MM-DD` string
of the day. -/
def formatDateString (z : Int) : String :=
  let c := civilFromDays z
  pad4 c.year.toNat ++ "-" ++ pad2 c.month ++ "-" ++ pad2 c.day

/-- Iteration of the `while (currentDate <= end)` loop of `getDatesBetween`
with the iteration count precomputed: push the current day and step one day
forward, `n` times. -/
def rangeDays : Int → Nat → List Int
  | _, 0 => []
  | cur, n + 1 => cur :: rangeDays (cur + 1) n

/-- Embeds `getDatesBetween(startDate, endDate)` from `calendar-utils.ts`:
starting at `startDate`, push the current day and step one day forward while
the current day is `≤ endDate` — the loop runs exactly
`max (endDate + 1 - startDate) 0` times.  Days are epoch days (the source
pushes their `formatDateString` strings). -/
def getDatesBetween (s e : Int) : List Int :=
  rangeDays s (e + 1 - s).toNat

theorem getDatesBetween_of_le {s e : Int} (h : s ≤ e) :
    getDatesBetween s e = s :: getDatesBetween (s + 1) e := by
  unfold getDatesBetween
  have hn : (e + 1 - s).toNat = (e + 1 - (s + 1)).toNat + 1 := by omega
  rw [hn, rangeDays]

theorem getDatesBetween_of_gt {s e : Int} (h : e < s) :
    getDatesBetween s e = [] := by
  unfold getDatesBetween
  have hn : (e + 1 - s).toNat = 0 := by omega
  rw [hn, rangeDays]

theorem getDatesBetween_single (a : Int) : getDatesBetween a a = [a] := by
  rw [getDatesBetween_of_le le_rfl, getDatesBetween_of_gt (by omega)]

private theorem mem_getDatesBetween_aux (e d : Int) :
    ∀ (n : Nat) (s : Int), (e + 1 - s).toNat = n →
      (d ∈ getDatesBetween s e ↔ s ≤ d ∧ d ≤ e) := by
  intro n
  induction n with
  | zero =>
    intro s hn
    rw [getDatesBetween_of_gt (by omega)]
    simp; omega
  | succ k ih =>
    intro s hn
    rw [getDatesBetween_of_le (by omega), List.mem_cons, ih (s + 1) (by omega)]
    omega

theorem mem_getDatesBetween {s e d : Int} :
    d ∈ getDatesBetween s e ↔ s ≤ d ∧ d ≤ e :=
  mem_getDatesBetween_aux e d ((e + 1 - s).toNat) s rfl

private theorem pairwise_getDatesBetween_aux (e : Int) :
    ∀ (n : Nat) (s : Int), (e + 1 - s).toNat = n →
      (getDatesBetween s e).Pairwise (· < ·) := by
  intro n
  induction n with
  | zero =>
    intro s hn
    rw [getDatesBetween_of_gt (by omega)]
    exact List.Pairwise.nil
  | succ k ih =>
    intro s hn
    rw [getDatesBetween_of_le (by omega)]
    refine List.Pairwise.cons ?_ (ih (s + 1) (by omega))
    intro d hd
    have := mem_getDatesBetween.mp hd
    omega

theorem pairwise_getDatesBetween (s e : Int) :
    (getDatesBetween s e).Pairwise (· < ·) :=
  pairwise_getDatesBetween_aux e ((e + 1 - s).toNat) s rfl

/-- Insert a day into a chronologically ordered list (helper for `sortDates`). -/
def insertDate (x : Int) : List Int → List Int
  | [] => [x]
  | y :: ys => if x ≤ y then x :: y :: ys else y :: insertDate x ys

/-- Embeds `sortDates` from `calendar-utils.ts`:
`dates.sort((a, b) => new Date(a).getTime() - new Date(b).getTime())`, a
chronological sort of day strings, modelled as insertion sort on epoch days. -/
def sortDates (l : List Int) : List Int := l.foldr insertDate []

theorem mem_insertDate {a x : Int} {l : List Int} :
    a ∈ insertDate x l ↔ a = x ∨ a ∈ l := by
  induction l with
  | nil => simp [insertDate]
  | cons y ys ih =>
    by_cases h : x ≤ y
    · simp [insertDate, h]
    · simp only [insertDate, if_neg h, List.mem_cons, ih]
      tauto

theorem mem_sortDates {a : Int} {l : List Int} :
    a ∈ sortDates l ↔ a ∈ l := by
  induction l with
  | nil => simp [sortDates]
  | cons y ys ih =>
    simp only [sortDates, List.foldr_cons, mem_insertDate, List.mem_cons]
    rw [← sortDates, ih]

theorem length_insertDate (x : Int) (l : List Int) :
    (insertDate x l).length = l.length + 1 := by
  induction l with
  | nil => rfl
  | cons y ys ih =>
    by_cases h : x ≤ y
    · simp [insertDate, h]
    · simp [insertDate, h, ih]

theorem length_sortDates (l : List Int) :
    (sortDates l).length = l.length := by
  induction l with
  | nil => rfl
  | cons y ys ih =>
    simp only [sortDates, List.foldr_cons, length_insertDate, List.length_cons]
    rw [← sortDates, ih]

/-- Embeds the `CalendarDay` interface of `calendar-utils.ts`.  `date` is the
epoch day of the cell; the remaining fields are computed exactly as the
source computes them. -/
structure CalendarDay where
  date : Int
  dateString : String
  dayNumber : Nat
  isCurrentMonth : Bool
  isToday : Bool
  isPrevMonth : Bool
  isNextMonth : Bool
deriving Repr, DecidableEq

/-- One cell of the body of the `while` loop in `generateCalendarDays`:
`month` is the grid's zero-indexed month, `today` the process's current day at
midnight, `d` the cell's day.  The flag expressions transcribe the source:
`isCurrentMonth = currentDate.getMonth() === month`,
`isPrevMonth = currentDate.getMonth() < month || (currentDate.getMonth() === 11 && month === 0)`,
`isNextMonth = currentDate.getMonth() > month || (currentDate.getMonth() === 0 && month === 11)`. -/
def mkCalendarDay (month : Nat) (today d : Int) : CalendarDay where
  date := d
  dateString := formatDateString d
  dayNumber := dayOfMonth d
  isCurrentMonth := monthIdx d == month
  isToday := d == today
  isPrevMonth := monthIdx d < month || (monthIdx d == 11 && month == 0)
  isNextMonth := decide (monthIdx d > month) || (monthIdx d == 0 && month == 11)

/-- The `while (currentDate <= endDate)` loop of `generateCalendarDays`,
with the iteration count `n` precomputed (the loop steps one day at a time
from the grid start, so it runs exactly `endDate + 1 - startDate` times). -/
def buildDays (month : Nat) (today : Int) : Int → Nat → List CalendarDay
  | _, 0 => []
  | cur, n + 1 => mkCalendarDay month today cur :: buildDays month today (cur + 1) n

/-- First day shown by the grid for (`year`, zero-indexed `month`): the 1st
of the month moved back to its preceding Sunday
(`startDate.setDate(startDate.getDate() - startDate.getDay())`). -/
def gridStart (year : Int) (month : Nat) : Int :=
  let firstDay := daysFromCivil year (month + 1) 1
  firstDay - dayOfWeek firstDay

/-- Last day shown by the grid: the last day of the month
(`new Date(year, month + 1, 0)`) moved forward to its following Saturday
(`endDate.setDate(endDate.getDate() + (6 - endDate.getDay()))`). -/
def gridEnd (year : Int) (month : Nat) : Int :=
  let lastDay :=
    (if month == 11 then daysFromCivil (year + 1) 1 1
     else daysFromCivil year (month + 2) 1) - 1
  lastDay + (6 - dayOfWeek lastDay)

/-- Embeds `generateCalendarDays(year, month)` from `calendar-utils.ts` for
zero-indexed months `0..11` (what every caller passes, via `getMonth()`).
The source reads "today" from the clock with hours zeroed; here it is the
explicit parameter `today`, making the function pure in `(year, month, today)`. -/
def generateCalendarDays (year : Int) (month : Nat) (today : Int) : List CalendarDay :=
  buildDays month today (gridStart year month)
    (gridEnd year month + 1 - gridStart year month).toNat

theorem buildDays_eq_map (month : Nat) (today : Int) :
    ∀ (n : Nat) (cur : Int),
      buildDays month today cur n
        = (List.range n).map (fun i : Nat => mkCalendarDay month today (cur + (i : Int))) := by
  intro n
  induction n with
  | zero => intro cur; rfl
  | succ k ih =>
    intro cur
    have hf : ((fun i : Nat => mkCalendarDay month today (cur + (i : Int))) ∘ Nat.succ)
        = fun i : Nat => mkCalendarDay month today (cur + 1 + (i : Int)) := by
      funext i
      simp only [Function.comp_apply]
      congr 1
      push_cast
      ring
    rw [buildDays, ih (cur + 1), List.range_succ_eq_map, List.map_cons, List.map_map, hf]
    norm_num

/-- Embeds the `Booking` record of `shared/schema.ts`.  Optional fields
(`customerEmail`, `notes`) are `Option String` (`null` in the source maps to
`none`); `startDate`/`endDate` are epoch days of the stored `YYYY-MM-DD`
strings; `createdAt` is an opaque creation timestamp. -/
structure Booking where
  id : String
  roomId : String
  customerName : String
  customerEmail : Option String
  startDate : Int
  endDate : Int
  notes : Option String
  createdAt : Nat
deriving Repr, DecidableEq

/-- Embeds the validated `InsertBooking` payload of `shared/schema.ts`
(everything of `Booking` except the generated `id` and `createdAt`).
`customerEmail ?? null` and `notes ?? null` in `createBooking` collapse an
absent optional field and an explicit `null` to the same stored `null`, so
both are `none` here. -/
structure InsertBooking where
  roomId : String
  customerName : String
  customerEmail : Option String
  startDate : Int
  endDate : Int
  notes : Option String
deriving Repr, DecidableEq

/-- Embeds `MemStorage.checkBookingConflict(roomId, startDate, endDate,
excludeBookingId?)`.  The store is the list of values of the `bookings` map.
Per stored booking the source returns `false` when
`booking.id === excludeBookingId` (strict equality against a possibly absent
argument, i.e. `Option` equality here) or `booking.roomId !== roomId`, and
otherwise tests closed-interval overlap
`start <= bookingEnd && end >= bookingStart` on the parsed dates.
`MongoStorage.checkBookingConflict` issues the same predicate as a query
(`_id ≠ excludeBookingId`, `roomId` equal, `startDate ≤ end`, `endDate ≥ start`). -/
def checkBookingConflict (store : List Booking) (roomId : String)
    (startDate endDate : Int) (excludeBookingId : Option String) : Bool :=
  store.any fun booking =>
    if excludeBookingId == some booking.id then false
    else if booking.roomId != roomId then false
    else decide (startDate ≤ booking.endDate) && decide (endDate ≥ booking.startDate)

/-- Embeds `MemStorage.createBooking`: build the full record from the insert
payload with a freshly generated id (`randomUUID()`, here the parameter
`newId`) and the current timestamp (parameter `now`), and add it to the map
(a fresh key appends a new value). -/
def mkBooking (ins : InsertBooking) (newId : String) (now : Nat) : Booking where
  id := newId
  roomId := ins.roomId
  customerName := ins.customerName
  customerEmail := ins.customerEmail
  startDate := ins.startDate
  endDate := ins.endDate
  notes := ins.notes
  createdAt := now

/-- Embeds `POST /api/bookings` from `src/server/routes.ts`, after schema
validation: run `checkBookingConflict` on the requested room and interval
(no exclusion id); on conflict respond `409` with no write; otherwise call
`createBooking` and respond `201` with the created record.  The result is
`(HTTP status, response booking if any, booking store after the request)`. -/
def postBookings (store : List Booking) (ins : InsertBooking)
    (newId : String) (now : Nat) : Nat × Option Booking × List Booking :=
  if checkBookingConflict store ins.roomId ins.startDate ins.endDate none then
    (409, none, store)
  else
    let booking := mkBooking ins newId now
    (201, some booking, store ++ [booking])

/-- Epoch day of `new Date(year, month - 1, 1)` in `getBookingsByMonth`:
the 1st of one-indexed `month`. -/
def monthStartDay (year : Int) (month : Nat) : Int := daysFromCivil year month 1

/-- Epoch day of `new Date(year, month, 0)` in `getBookingsByMonth`: day `0`
of the following month, i.e. the last day of one-indexed `month` (for
`month = 12` the following month is January of the next year). -/
def monthEndDay (year : Int) (month : Nat) : Int :=
  (if month == 12 then daysFromCivil (year + 1) 1 1
   else daysFromCivil year (month + 1) 1) - 1

/-- Embeds `MemStorage.getBookingsByMonth(year, month)` (one-indexed month):
filter the stored bookings by `startDate <= monthEnd && endDate >= monthStart`.
`MongoStorage.getBookingsByMonth` issues the same test as a query. -/
def getBookingsByMonth (store : List Booking) (year : Int) (month : Nat) :
    List Booking :=
  store.filter fun booking =>
    decide (booking.startDate ≤ monthEndDay year month)
      && decide (booking.endDate ≥ monthStartDay year month)

/-- Embeds the validated `Partial<InsertBooking>` update payload of
`PUT /api/bookings/:id`: each insertable field is either absent (`none`) or
supplied.  The two nullable fields can be supplied as `null`, hence their
doubled `Option`. -/
structure BookingUpdate where
  roomId : Option String
  customerName : Option String
  customerEmail : Option (Option String)
  startDate : Option Int
  endDate : Option Int
  notes : Option (Option String)
deriving Repr, DecidableEq

/-- Embeds the spread merge `{ ...existing, ...updates }` of
`MemStorage.updateBooking`: a supplied field overrides, an absent field keeps
the stored value, and `id`/`createdAt` (absent from the update type) always
keep the stored value. -/
def applyUpdate (existing : Booking) (updates : BookingUpdate) : Booking where
  id := existing.id
  roomId := updates.roomId.getD existing.roomId
  customerName := updates.customerName.getD existing.customerName
  customerEmail := updates.customerEmail.getD existing.customerEmail
  startDate := updates.startDate.getD existing.startDate
  endDate := updates.endDate.getD existing.endDate
  notes := updates.notes.getD existing.notes
  createdAt := existing.createdAt

/-- Embeds `MemStorage.getBooking(id)`: `this.bookings.get(id)`, a lookup of
the stored booking with the given id. -/
def getBooking (store : List Booking) (id : String) : Option Booking :=
  store.find? fun booking => booking.id == id

/-- Embeds `MemStorage.updateBooking(id, updates)`: `undefined` when no
booking has the id; otherwise the merged record is stored back under the same
key (`this.bookings.set(id, updated)`) and returned. -/
def updateBooking (store : List Booking) (id : String) (updates : BookingUpdate) :
    Option (Booking × List Booking) :=
  match getBooking store id with
  | none => none
  | some existing =>
      let updated := applyUpdate existing updates
      some (updated, store.map fun booking =>
        if booking.id == id then updated else booking)

/-- Embeds the selection state of `CalendarGrid`
(`calendar-grid.tsx`): `isDragging`, `dragStartDate` (the gesture anchor,
`null` while idle) and the accumulated selection
(`internalSelectedDates`, mirrored by `currentSelectionRef`, which the
handlers keep in sync — one field here). -/
structure DragState where
  isDragging : Bool
  dragStartDate : Option Int
  selection : List Int
deriving Repr, DecidableEq

/-- The grid's state before any pointer event: not dragging, no anchor,
empty selection. -/
def initDragState : DragState := ⟨false, none, []⟩

/-- Embeds `handleMouseDown(dateString)`: start dragging, anchor at the
pressed day, seed the selection with exactly that day. -/
def handleMouseDown (d : Int) (_s : DragState) : DragState :=
  ⟨true, some d, [d]⟩

/-- Recomputation of the dragged selection in `handleMouseEnter`: order the
anchor and the entered day by comparing their parsed dates
(`_startDate <= _endDate ? ... : ...`) and enumerate the range between them.
The auto-scroll timer armed on corner cells only pages the displayed month
and re-assigns this same range when it fires, so it does not affect the
selection value and is not part of the state here. -/
def dragRange (anchor d : Int) : List Int :=
  if anchor ≤ d then getDatesBetween anchor d else getDatesBetween d anchor

/-- Embeds `handleMouseEnter(dateString)` (body, given `dragRange` above as
its recomputation): no-op unless dragging with an anchor. -/
def handleMouseEnter (d : Int) (s : DragState) : DragState :=
  match s.isDragging, s.dragStartDate with
  | true, some anchor => { s with selection := dragRange anchor d }
  | _, _ => s

/-- Embeds `handleMouseUp()`: a no-op while not dragging; otherwise stop
dragging, clear the anchor, and when the captured selection is non-empty
emit it sorted (`onDatesSelected(sortDates(finalSelection))`).  The selection
list itself is not cleared by this handler.  Result: next state and the
emission, if any. -/
def handleMouseUp (s : DragState) : DragState × Option (List Int) :=
  if s.isDragging then
    let finalSelection := s.selection
    (⟨false, none, finalSelection⟩,
      if finalSelection.length > 0 then some (sortDates finalSelection) else none)
  else (s, none)

/-- A pointer event over the grid: press on a day, move onto a day, release. -/
inductive PointerEvent where
  | down (d : Int)
  | enter (d : Int)
  | up
deriving Repr, DecidableEq

/-- One step of the selection machine: dispatch a pointer event to its
handler; only release can emit. -/
def stepEvent (s : DragState) : PointerEvent → DragState × Option (List Int)
  | .down d => (handleMouseDown d s, none)
  | .enter d => (handleMouseEnter d s, none)
  | .up => handleMouseUp s

/-- Run a sequence of pointer events from a state, collecting every emission
in order. -/
def runEvents (s : DragState) : List PointerEvent → DragState × List (List Int)
  | [] => (s, [])
  | ev :: evs =>
      let (s', em) := stepEvent s ev
      let (s'', ems) := runEvents s' evs
      (s'', em.toList ++ ems)

/-- Fold a list of entered days through `handleMouseEnter`, the shape of a
drag gesture between press and release. -/
def applyEnters (s : DragState) (ds : List Int) : DragState :=
  ds.foldl (fun st d => handleMouseEnter d st) s

theorem dragRange_eq_minmax (anchor d : Int) :
    dragRange anchor d = getDatesBetween (min anchor d) (max anchor d) := by
  rcases le_total anchor d with h | h
  · rw [dragRange, if_pos h, min_eq_left h, max_eq_right h]
  · rcases eq_or_lt_of_le h with rfl | hlt
    · simp [dragRange]
    · rw [dragRange, if_neg (by omega), min_eq_right h, max_eq_left h]

theorem anchor_mem_dragRange (anchor d : Int) : anchor ∈ dragRange anchor d := by
  rw [dragRange_eq_minmax]
  exact mem_getDatesBetween.mpr ⟨min_le_left _ _, le_max_left _ _⟩

theorem handleMouseEnter_dragging (anchor d : Int) (sel : List Int) :
    handleMouseEnter d ⟨true, some anchor, sel⟩ = ⟨true, some anchor, dragRange anchor d⟩ :=
  rfl

theorem applyEnters_snoc (anchor : Int) :
    ∀ (ds : List Int) (d' : Int) (sel : List Int),
      applyEnters ⟨true, some anchor, sel⟩ (ds ++ [d'])
        = ⟨true, some anchor, dragRange anchor d'⟩ := by
  intro ds
  induction ds with
  | nil => intro d' sel; rfl
  | cons x xs ih =>
    intro d' sel
    show applyEnters (handleMouseEnter x ⟨true, some anchor, sel⟩) (xs ++ [d']) = _
    rw [handleMouseEnter_dragging]
    exact ih d' _

theorem applyEnters_keeps_anchor (anchor : Int) :
    ∀ (ds : List Int) (sel : List Int), anchor ∈ sel →
      ∃ sel', applyEnters ⟨true, some anchor, sel⟩ ds = ⟨true, some anchor, sel'⟩
        ∧ anchor ∈ sel' := by
  intro ds
  induction ds with
  | nil => intro sel hsel; exact ⟨sel, rfl, hsel⟩
  | cons x xs ih =>
    intro sel hsel
    show ∃ sel', applyEnters (handleMouseEnter x ⟨true, some anchor, sel⟩) xs = _ ∧ _
    rw [handleMouseEnter_dragging]
    exact ih (dragRange anchor x) (anchor_mem_dragRange anchor x)

theorem runEvents_enters (ds : List Int) :
    ∀ s : DragState, runEvents s (ds.map PointerEvent.enter) = (applyEnters s ds, []) := by
  induction ds with
  | nil => intro s; rfl
  | cons x xs ih =>
    intro s
    show (let r := runEvents (handleMouseEnter x s) (xs.map PointerEvent.enter);
          (r.1, [] ++ r.2)) = _
    rw [ih (handleMouseEnter x s)]
    rfl

theorem runEvents_append (l₁ l₂ : List PointerEvent) :
    ∀ s : DragState,
      runEvents s (l₁ ++ l₂)
        = ((runEvents (runEvents s l₁).1 l₂).1,
           (runEvents s l₁).2 ++ (runEvents (runEvents s l₁).1 l₂).2) := by
  induction l₁ with
  | nil => intro s; simp [runEvents]
  | cons ev evs ih =>
    intro s
    show (let r := runEvents (stepEvent s ev).1 (evs ++ l₂);
          (r.1, (stepEvent s ev).2.toList ++ r.2)) = _
    rw [ih (stepEvent s ev).1]
    simp [runEvents, List.append_assoc]

/-- Sample stored booking used to instantiate witnesses: Green Room,
2025-01-10 through 2025-01-12. -/
def demoBooking : Booking :=
  ⟨"bk-1", "green-room", "Ada", none, daysFromCivil 2025 1 10,
    daysFromCivil 2025 1 12, none, 0⟩

theorem conflictTest_iff (roomId : String) (s e : Int) (ex : Option String)
    (b : Booking) :
    ((if ex == some b.id then false
      else if b.roomId != roomId then false
      else decide (s ≤ b.endDate) && decide (e ≥ b.startDate)) = true)
    ↔ b.roomId = roomId ∧ (∀ x, ex = some x → b.id ≠ x)
        ∧ s ≤ b.endDate ∧ b.startDate ≤ e := by
  split_ifs with h1 h2
  · simp only [false_iff]
    rintro ⟨-, hx, -, -⟩
    rw [beq_iff_eq] at h1
    exact hx b.id h1 rfl
  · simp only [false_iff]
    rintro ⟨hr, -, -, -⟩
    rw [bne_iff_ne] at h2
    exact h2 hr
  · have hr : b.roomId = roomId := by
      by_contra hne
      exact h2 (bne_iff_ne.mpr hne)
    have hex : ∀ x, ex = some x → b.id ≠ x := by
      intro x hx heq
      apply h1
      rw [beq_iff_eq, hx, heq]
    simp only [Bool.and_eq_true, decide_eq_true_eq, ge_iff_le]
    exact ⟨fun ⟨ha, hb⟩ => ⟨hr, hex, ha, hb⟩, fun ⟨_, _, ha, hb⟩ => ⟨ha, hb⟩⟩

/-- C1: for every store, room id and closed range `[start, end]` with
`start ≤ end`, `checkBookingConflict` returns `true` iff some stored booking
has this `roomId`, an id different from `excludeBookingId` when that is
given, and `start ≤ B.endDate ∧ end ≥ B.startDate` (closed-interval overlap,
so touching endpoints conflict); and a booking checked against only its own
prior record with `excludeBookingId` set to its own id yields `false`. -/
theorem checkBookingConflict_spec (store : List Booking) (roomId : String)
    (s e : Int) (ex : Option String) (h : s ≤ e) :
    (checkBookingConflict store roomId s e ex = true ↔
      ∃ b ∈ store, b.roomId = roomId ∧ (∀ x, ex = some x → b.id ≠ x)
        ∧ s ≤ b.endDate ∧ b.startDate ≤ e) ∧
    ∀ b : Booking, checkBookingConflict [b] b.roomId s e (some b.id) = false := by
  constructor
  · rw [checkBookingConflict, List.any_eq_true]
    constructor
    · rintro ⟨b, hb, htest⟩
      exact ⟨b, hb, (conflictTest_iff roomId s e ex b).mp htest⟩
    · rintro ⟨b, hb, hprop⟩
      exact ⟨b, hb, (conflictTest_iff roomId s e ex b).mpr hprop⟩
  · intro b
    simp [checkBookingConflict]

/-- Witness for C1 at the spec's own test data: store holds only a booking
for 2025-01-10..2025-01-12; the adjacent range 2025-01-12..2025-01-14 on the
same room conflicts (shared boundary day), and the booking checked with its
own id excluded does not. -/
theorem checkBookingConflict_spec_witness :
    daysFromCivil 2025 1 12 ≤ daysFromCivil 2025 1 14 ∧
    checkBookingConflict [demoBooking] "green-room" (daysFromCivil 2025 1 12)
      (daysFromCivil 2025 1 14) none = true ∧
    checkBookingConflict [demoBooking] demoBooking.roomId (daysFromCivil 2025 1 12)
      (daysFromCivil 2025 1 14) (some demoBooking.id) = false := by
  have h1 := checkBookingConflict_spec [demoBooking] "green-room"
    (daysFromCivil 2025 1 12) (daysFromCivil 2025 1 14) none (by decide)
  have h2 := checkBookingConflict_spec [demoBooking] demoBooking.roomId
    (daysFromCivil 2025 1 12) (daysFromCivil 2025 1 14) (some demoBooking.id) (by decide)
  refine ⟨by decide, ?_, h2.2 demoBooking⟩
  exact h1.1.mpr ⟨demoBooking, by decide, rfl,
    fun x hx => Option.noConfusion hx, by decide, by decide⟩

/-- C2: a validated create request whose candidate interval conflicts is
rejected with HTTP 409 and the booking store is exactly unchanged; a
non-conflicting request creates the booking, returns it with status 201, and
appends exactly it to the store. -/
theorem postBookings_spec (store : List Booking) (ins : InsertBooking)
    (newId : String) (now : Nat) :
    (checkBookingConflict store ins.roomId ins.startDate ins.endDate none = true →
      postBookings store ins newId now = (409, none, store)) ∧
    (checkBookingConflict store ins.roomId ins.startDate ins.endDate none = false →
      postBookings store ins newId now
        = (201, some (mkBooking ins newId now), store ++ [mkBooking ins newId now])) := by
  constructor
  · intro h
    simp [postBookings, h]
  · intro h
    simp [postBookings, h]

/-- Witness for C2: creating into a store where the room is already booked
on an overlapping range is rejected with the store unchanged; creating into
the empty store succeeds. -/
theorem postBookings_spec_witness :
    checkBookingConflict [demoBooking] "green-room" (daysFromCivil 2025 1 11)
      (daysFromCivil 2025 1 11) none = true ∧
    postBookings [demoBooking]
      ⟨"green-room", "Bob", none, daysFromCivil 2025 1 11, daysFromCivil 2025 1 11, none⟩
      "bk-2" 1 = (409, none, [demoBooking]) ∧
    postBookings []
      ⟨"green-room", "Bob", none, daysFromCivil 2025 1 11, daysFromCivil 2025 1 11, none⟩
      "bk-2" 1
      = (201,
         some (mkBooking ⟨"green-room", "Bob", none, daysFromCivil 2025 1 11,
           daysFromCivil 2025 1 11, none⟩ "bk-2" 1),
         [] ++ [mkBooking ⟨"green-room", "Bob", none, daysFromCivil 2025 1 11,
           daysFromCivil 2025 1 11, none⟩ "bk-2" 1]) := by
  refine ⟨by decide, ?_, ?_⟩
  · exact (postBookings_spec [demoBooking]
      ⟨"green-room", "Bob", none, daysFromCivil 2025 1 11, daysFromCivil 2025 1 11, none⟩
      "bk-2" 1).1 (by decide)
  · exact (postBookings_spec []
      ⟨"green-room", "Bob", none, daysFromCivil 2025 1 11, daysFromCivil 2025 1 11, none⟩
      "bk-2" 1).2 (by decide)

/-- C5: for every range with `start ≤ end`, `getDatesBetween` returns the
sequence that contains exactly the days from `start` to `end` inclusive, is
strictly increasing (hence duplicate-free), and for equal endpoints is the
one-element sequence — concretely at 2025-01-05. -/
theorem getDatesBetween_spec (s e : Int) (h : s ≤ e) :
    (∀ d : Int, d ∈ getDatesBetween s e ↔ s ≤ d ∧ d ≤ e) ∧
    (getDatesBetween s e).Pairwise (· < ·) ∧
    getDatesBetween (daysFromCivil 2025 1 5) (daysFromCivil 2025 1 5)
      = [daysFromCivil 2025 1 5] :=
  ⟨fun _ => mem_getDatesBetween, pairwise_getDatesBetween s e,
    getDatesBetween_single _⟩

/-- Witness for C5 at the range 2025-01-10..2025-01-12. -/
theorem getDatesBetween_spec_witness :
    daysFromCivil 2025 1 10 ≤ daysFromCivil 2025 1 12 ∧
    ((∀ d : Int, d ∈ getDatesBetween (daysFromCivil 2025 1 10) (daysFromCivil 2025 1 12)
        ↔ daysFromCivil 2025 1 10 ≤ d ∧ d ≤ daysFromCivil 2025 1 12) ∧
     (getDatesBetween (daysFromCivil 2025 1 10) (daysFromCivil 2025 1 12)).Pairwise (· < ·) ∧
     getDatesBetween (daysFromCivil 2025 1 5) (daysFromCivil 2025 1 5)
       = [daysFromCivil 2025 1 5]) :=
  ⟨by decide, getDatesBetween_spec _ _ (by decide)⟩

/-- C10: for a misordered range (`start > end`) `getDatesBetween` returns
the empty sequence: the loop guard fails on the first check, so nothing is
selected, nothing is swapped, and no error is raised. -/
theorem getDatesBetween_misordered (s e : Int) (h : e < s) :
    getDatesBetween s e = [] :=
  getDatesBetween_of_gt h

/-- Witness for C10: 2025-01-12 down to 2025-01-10 selects no days. -/
theorem getDatesBetween_misordered_witness :
    daysFromCivil 2025 1 10 < daysFromCivil 2025 1 12 ∧
    getDatesBetween (daysFromCivil 2025 1 12) (daysFromCivil 2025 1 10) = [] :=
  ⟨by decide, getDatesBetween_misordered _ _ (by decide)⟩

/-- C8: the month-range query returns exactly the stored bookings whose
interval `[startDate, endDate]` meets the closed month interval under the
test `startDate ≤ monthEnd ∧ endDate ≥ monthStart`, where `monthStart` is
the 1st of the (one-indexed) month and `monthEnd` its last day. -/
theorem getBookingsByMonth_spec (store : List Booking) (year : Int) (month : Nat)
    (h1 : 1 ≤ month) (h2 : month ≤ 12) :
    ∀ b : Booking, b ∈ getBookingsByMonth store year month ↔
      b ∈ store ∧ b.startDate ≤ monthEndDay year month
        ∧ monthStartDay year month ≤ b.endDate := by
  intro b
  simp [getBookingsByMonth, List.mem_filter, and_assoc]

/-- Witness for C8, January 2025: a booking spanning 2024-12-30..2025-01-02
(overlapping the month boundary) is returned; the demo booking inside the
month is returned; a December-only booking is not. -/
theorem getBookingsByMonth_spec_witness :
    1 ≤ 1 ∧ (1 : Nat) ≤ 12 ∧
    (demoBooking ∈ getBookingsByMonth [demoBooking] 2025 1 ↔
      demoBooking ∈ [demoBooking]
        ∧ demoBooking.startDate ≤ monthEndDay 2025 1
        ∧ monthStartDay 2025 1 ≤ demoBooking.endDate) :=
  ⟨le_rfl, by decide, getBookingsByMonth_spec [demoBooking] 2025 1 le_rfl (by decide) demoBooking⟩

theorem find?_map_set {store : List Booking} {id : String} {b r : Booking}
    (h : store.find? (fun x => x.id == id) = some b) (hr : r.id = b.id) :
    (store.map fun x => if x.id == id then r else x).find? (fun x => x.id == id)
      = some r := by
  induction store with
  | nil => simp at h
  | cons y ys ih =>
    cases hy : (y.id == id) with
    | true =>
      simp only [List.find?_cons, hy] at h
      have hb : y = b := by injection h
      have hrid : (r.id == id) = true := by
        rw [hr, ← hb]
        exact hy
      simp only [List.map_cons, if_pos hy, List.find?_cons, hrid]
    | false =>
      simp only [List.find?_cons, hy] at h
      have hmap : (y :: ys).map (fun x => if (x.id == id) = true then r else x)
          = y :: ys.map (fun x => if (x.id == id) = true then r else x) := by
        simp only [List.map_cons,
          if_neg (show ¬((y.id == id) = true) by rw [hy]; exact Bool.false_ne_true)]
      rw [hmap]
      simp only [List.find?_cons, hy]
      exact ih h

/-- C9: updating an existing booking shallow-merges the supplied fields into
the stored record: the merged record is stored back and returned, every
field absent from the update keeps its prior value, every supplied field
takes the supplied value, and the booking's `id` and creation timestamp are
unchanged. -/
theorem updateBooking_spec (store : List Booking) (id : String)
    (u : BookingUpdate) (b : Booking) (h : getBooking store id = some b) :
    ∃ r store', updateBooking store id u = some (r, store') ∧
      r = applyUpdate b u ∧
      getBooking store' id = some r ∧
      r.id = b.id ∧ r.createdAt = b.createdAt ∧
      (u.roomId = none → r.roomId = b.roomId) ∧
      (∀ v, u.roomId = some v → r.roomId = v) ∧
      (u.customerName = none → r.customerName = b.customerName) ∧
      (∀ v, u.customerName = some v → r.customerName = v) ∧
      (u.customerEmail = none → r.customerEmail = b.customerEmail) ∧
      (∀ v, u.customerEmail = some v → r.customerEmail = v) ∧
      (u.startDate = none → r.startDate = b.startDate) ∧
      (∀ v, u.startDate = some v → r.startDate = v) ∧
      (u.endDate = none → r.endDate = b.endDate) ∧
      (∀ v, u.endDate = some v → r.endDate = v) ∧
      (u.notes = none → r.notes = b.notes) ∧
      (∀ v, u.notes = some v → r.notes = v) := by
  refine ⟨applyUpdate b u, store.map fun x => if x.id == id then applyUpdate b u else x,
    ?_, rfl, ?_, rfl, rfl, ?_, ?_, ?_, ?_, ?_, ?_, ?_, ?_, ?_, ?_, ?_, ?_⟩
  · rw [updateBooking, h]
  · exact find?_map_set h rfl
  all_goals first
    | (intro hnone; simp [applyUpdate, hnone])
    | (intro v hv; simp [applyUpdate, hv])

/-- Witness for C9: updating the demo booking's room only changes the room;
name, dates, id and creation timestamp are kept. -/
theorem updateBooking_spec_witness :
    getBooking [demoBooking] "bk-1" = some demoBooking ∧
    ∃ r store', updateBooking [demoBooking] "bk-1"
        ⟨some "red-room", none, none, none, none, none⟩ = some (r, store') ∧
      r.id = demoBooking.id ∧ r.createdAt = demoBooking.createdAt ∧
      r.roomId = "red-room" ∧ r.customerName = demoBooking.customerName := by
  have h : getBooking [demoBooking] "bk-1" = some demoBooking := by decide
  obtain ⟨r, store', heq, -, -, hid, hca, -, hroom, hname, -, -, -, -, -, -, -, -, -⟩ :=
    updateBooking_spec [demoBooking] "bk-1"
      ⟨some "red-room", none, none, none, none, none⟩ demoBooking h
  exact ⟨h, r, store', heq, hid, hca, hroom "red-room" rfl, hname rfl⟩

/-- C6: after pointer-down on `D` and any non-empty sequence of
pointer-enter events ending at `D'`, the machine is still dragging, the
anchor is still `D`, and the selection is exactly
`dateRange(min(D, D'), max(D, D'))` under chronological comparison; in
particular pointer-down on 2025-01-10, enter 2025-01-08, enter 2025-01-12
leaves the selection equal to `dateRange(2025-01-10, 2025-01-12)` with no
trace of the backward excursion. -/
theorem dragSelection_spec (D : Int) (es : List Int) (D' : Int) :
    applyEnters (handleMouseDown D initDragState) (es ++ [D'])
      = ⟨true, some D, getDatesBetween (min D D') (max D D')⟩ ∧
    (applyEnters (handleMouseDown (daysFromCivil 2025 1 10) initDragState)
        [daysFromCivil 2025 1 8, daysFromCivil 2025 1 12]).selection
      = getDatesBetween (daysFromCivil 2025 1 10) (daysFromCivil 2025 1 12) := by
  constructor
  · show applyEnters ⟨true, some D, [D]⟩ (es ++ [D']) = _
    rw [applyEnters_snoc, dragRange_eq_minmax]
  · show (applyEnters ⟨true, some (daysFromCivil 2025 1 10),
        [daysFromCivil 2025 1 10]⟩
        ([daysFromCivil 2025 1 8] ++ [daysFromCivil 2025 1 12])).selection = _
    rw [applyEnters_snoc]
    show dragRange (daysFromCivil 2025 1 10) (daysFromCivil 2025 1 12) = _
    rw [dragRange, if_pos (by decide)]

theorem runEvents_cons (s : DragState) (ev : PointerEvent) (evs : List PointerEvent) :
    runEvents s (ev :: evs)
      = ((runEvents (stepEvent s ev).1 evs).1,
         (stepEvent s ev).2.toList ++ (runEvents (stepEvent s ev).1 evs).2) := by
  rw [runEvents]

/-- C7: a gesture of pointer-down on `D`, any pointer-enter sequence, and a
pointer-up emits the accumulated selection exactly once, and that emission
is non-empty and contains the anchor `D`; a duplicate pointer-up right after
(modelled by the trailing second `up`) emits nothing more and leaves the
state where the first release put it.  Moreover on any non-dragging state a
pointer-enter and a pointer-up are no-ops that emit nothing. -/
theorem gestureEmission_spec (D : Int) (es : List Int) (s : DragState) (d : Int)
    (hs : s.isDragging = false) :
    (∃ sel, runEvents initDragState
        (PointerEvent.down D :: (es.map PointerEvent.enter)
          ++ [PointerEvent.up, PointerEvent.up])
        = (⟨false, none, sel⟩, [sortDates sel])
      ∧ sel ≠ [] ∧ D ∈ sortDates sel) ∧
    handleMouseEnter d s = s ∧
    handleMouseUp s = (s, none) := by
  refine ⟨?_, ?_, ?_⟩
  · obtain ⟨sel, hsel, hmem⟩ :=
      applyEnters_keeps_anchor D es [D] (List.mem_singleton.mpr rfl)
    have hne : sel ≠ [] := fun hemp => by simp [hemp] at hmem
    have hlen : sel.length > 0 := List.length_pos.mpr hne
    refine ⟨sel, ?_, hne, mem_sortDates.mpr hmem⟩
    have hup1 : handleMouseUp ⟨true, some D, sel⟩
        = (⟨false, none, sel⟩, some (sortDates sel)) := by
      simp [handleMouseUp, hlen]
    have hup2 : handleMouseUp ⟨false, none, sel⟩ = (⟨false, none, sel⟩, none) := by
      simp [handleMouseUp]
    have hnil : ∀ st : DragState, runEvents st [] = (st, []) := fun _ => rfl
    have hups : runEvents (⟨true, some D, sel⟩ : DragState)
        [PointerEvent.up, PointerEvent.up]
        = (⟨false, none, sel⟩, [sortDates sel]) := by
      simp [runEvents_cons, hnil, stepEvent, hup1, hup2]
    have hstep : stepEvent initDragState (PointerEvent.down D)
        = (⟨true, some D, [D]⟩, none) := rfl
    rw [runEvents_append (PointerEvent.down D :: es.map PointerEvent.enter)
      [PointerEvent.up, PointerEvent.up],
      runEvents_cons initDragState (PointerEvent.down D) (es.map PointerEvent.enter),
      hstep]
    dsimp only
    simp only [Option.toList_none, List.nil_append]
    rw [runEvents_enters, hsel]
    dsimp only
    rw [hups]
    simp
  · cases s with
    | mk dr an sel =>
      cases an with
      | none =>
        cases dr with
        | false => rfl
        | true => exact absurd hs (by simp)
      | some a =>
        cases dr with
        | false => rfl
        | true => exact absurd hs (by simp)
  · rw [handleMouseUp, if_neg (by rw [hs]; exact Bool.false_ne_true)]

/-- Witness for C7: a concrete full gesture — press 2025-01-10, drag to
2025-01-12, release twice — emits `[2025-01-10 .. 2025-01-12]` exactly once;
and on the idle initial state enter/up are no-ops. -/
theorem gestureEmission_spec_witness :
    initDragState.isDragging = false ∧
    handleMouseEnter (daysFromCivil 2025 1 11) initDragState = initDragState ∧
    handleMouseUp initDragState = (initDragState, none) ∧
    (∃ sel, runEvents initDragState
        (PointerEvent.down (daysFromCivil 2025 1 10)
          :: ([daysFromCivil 2025 1 12].map PointerEvent.enter)
          ++ [PointerEvent.up, PointerEvent.up])
        = (⟨false, none, sel⟩, [sortDates sel])
      ∧ sel ≠ [] ∧ daysFromCivil 2025 1 10 ∈ sortDates sel) := by
  have h := gestureEmission_spec (daysFromCivil 2025 1 10) [daysFromCivil 2025 1 12]
    initDragState (daysFromCivil 2025 1 11) rfl
  exact ⟨rfl, h.2.1, h.2.2, h.1⟩

/-- C4: the January 2025 grid (zero-indexed month `0`, any `today`) has a
multiple-of-7 length, its first cell is `2024-12-29` (the Sunday preceding
January 1st), its last cell is `2025-02-01` — the day after January 31st,
which falls on a Saturday (`dayOfWeek = 6`) — and exactly the cells whose
day lies in 2025-01-01..2025-01-31 have `isCurrentMonth = true`. -/
theorem generateCalendarDays_jan2025 (today : Int) :
    (generateCalendarDays 2025 0 today).length % 7 = 0 ∧
    ((generateCalendarDays 2025 0 today).head?.map fun c => c.dateString)
      = some "2024-12-29" ∧
    ((generateCalendarDays 2025 0 today).getLast?.map fun c => c.dateString)
      = some "2025-02-01" ∧
    daysFromCivil 2025 2 1 = daysFromCivil 2025 1 31 + 1 ∧
    dayOfWeek (daysFromCivil 2025 2 1) = 6 ∧
    ∀ c ∈ generateCalendarDays 2025 0 today,
      (c.isCurrentMonth = true ↔
        daysFromCivil 2025 1 1 ≤ c.date ∧ c.date ≤ daysFromCivil 2025 1 31) := by
  have h2 : (gridEnd 2025 0 + 1 - gridStart 2025 0).toNat = 35 := by decide
  have h1 : gridStart 2025 0 = 20086 := by decide
  have hgrid : generateCalendarDays 2025 0 today
      = (List.range 35).map (fun i : Nat => mkCalendarDay 0 today (20086 + (i : Int))) := by
    rw [generateCalendarDays, h2, h1, buildDays_eq_map]
  refine ⟨?_, ?_, ?_, by decide, by decide, ?_⟩
  · rw [hgrid]
    simp
  · rw [hgrid, List.head?_map]
    have h0 : (List.range 35).head? = some 0 := rfl
    rw [h0]
    show some (formatDateString ((20086 : Int) + ((0 : Nat) : Int))) = _
    decide
  · rw [hgrid, List.getLast?_map]
    have hL : (List.range 35).getLast? = some 34 := by decide
    rw [hL]
    show some (formatDateString ((20086 : Int) + ((34 : Nat) : Int))) = _
    decide
  · have hall : ∀ i : Nat, i < 35 →
        ((monthIdx (20086 + (i : Int)) == 0) = true ↔
          daysFromCivil 2025 1 1 ≤ 20086 + (i : Int)
            ∧ 20086 + (i : Int) ≤ daysFromCivil 2025 1 31) := by decide
    intro c hc
    rw [hgrid] at hc
    obtain ⟨i, hi, rfl⟩ := List.mem_map.mp hc
    exact hall i (List.mem_range.mp hi)

/-- C3 fails on the code at year boundaries: in the January 2025 grid the
December 2024 padding cell `2024-12-29` has `isPrevMonth = true` (from the
special case `getMonth() === 11 && month === 0`) and simultaneously
`isNextMonth = true` (because `getMonth() > month`, i.e. `11 > 0`, also
fires); symmetrically the December 2025 grid's January 2026 padding cell
`2026-01-01` has `isNextMonth = true` and `isPrevMonth = true` (from
`getMonth() < month`, i.e. `0 < 11`).  So two of the three flags are set on
these cells, not exactly one. -/
theorem generateCalendarDays_year_boundary_flags :
    (∃ c ∈ generateCalendarDays 2025 0 0, c.dateString = "2024-12-29"
       ∧ c.isPrevMonth = true ∧ c.isNextMonth = true ∧ c.isCurrentMonth = false) ∧
    (∃ c ∈ generateCalendarDays 2025 11 0, c.dateString = "2026-01-01"
       ∧ c.isPrevMonth = true ∧ c.isNextMonth = true ∧ c.isCurrentMonth = false) := by
  decide
